import Mathlib

/-!
Shallow embedding of the core of `calendar_processor.py`
(`EdTrackCalendarProcessor`) from the edtrack-calendar repository:
calendar normalization (`process_calendar_data`), lesson expansion and
greedy scheduling (`process_lessons_for_scheduling`), learning-target
extraction (`create_learning_targets_from_lessons`) and schedule
validation (`validate_schedule`), together with theorems settling the
specification claims about them.

Modelling conventions:
- A calendar date is a `Nat`, counted in days from a fixed Monday epoch,
  so the Python `weekday()` value (Monday = 0 .. Sunday = 6) is `d % 7`.
- `pd.to_datetime(.., errors='coerce')` is modelled by giving each raw
  row an `Option Nat` date: `none` is a value whose parse failed (NaT),
  which `dropna` then removes.
- A pandas column that may be absent is modelled at table level
  (`hasSchoolDayCol`, `hasDayTypeCol`), matching the source's
  `if 'col' not in processed_df.columns` checks; the per-row field value
  is only meaningful when the column is present.
- `sort_values('date')` is modelled by a stable insertion sort on the
  date key (pandas' default quicksort fixes no order among equal dates;
  no claim depends on tie order).
- `datetime.now()` is modelled by an explicit clock argument `now`
  threaded into the functions that call it.
- Durations are `ℚ`; Python `int(x)` truncates toward zero, modelled by
  `pyInt` below, and `range(n)` of a negative value is empty, modelled
  by `Int.toNat`.
- Python fallible exits (`raise ValueError(..)`) are `Except.error` with
  the source's message; normal returns are `Except.ok`.
- The regular-expression objective extractor `_extract_objectives` is
  kept abstract as a function parameter `extractObjectives` (it is a
  pure function of the content string in the source); the keyword
  classifiers `_extract_domain` and `_extract_bloom_level` are
  translated directly.
-/

namespace EdTrack

/-- One row of a processed calendar (the columns of the processed
DataFrame that the scheduler and validator read). -/
structure CalendarDay where
  date : Nat
  is_school_day : Bool
  day_type : String
  is_weekend : Bool
deriving DecidableEq, Repr

/-- One raw calendar row, after the best-effort date parse:
`date = none` models a value `pd.to_datetime` coerced to NaT. -/
structure RawCalendarRow where
  date : Option Nat
  is_school_day : Bool
  day_type : String
deriving DecidableEq, Repr

/-- A raw calendar table. Column presence for the optional columns is
table-level, as in a DataFrame: when `hasSchoolDayCol = false` the
`is_school_day` values of the rows are absent/meaningless, likewise for
`day_type`. The date column is assumed present (the source's
missing-date-column branch raises before any behavior modelled here). -/
structure RawCalendarTable where
  hasSchoolDayCol : Bool
  hasDayTypeCol : Bool
  rows : List RawCalendarRow
deriving DecidableEq, Repr

/-- Stable insertion of a calendar day into a list sorted by date:
strict comparison keeps equal-date entries in their original order. -/
def insertByDate (x : CalendarDay) : List CalendarDay → List CalendarDay
  | [] => [x]
  | y :: ys => if x.date < y.date then x :: y :: ys else y :: insertByDate x ys

/-- `sort_values('date')`: stable sort of calendar days by date. -/
def sortByDate (l : List CalendarDay) : List CalendarDay :=
  l.foldr insertByDate []

/-- `process_calendar_data` (calendar_processor.py lines 44-117), on the
claim-relevant columns: empty input returns an empty result; rows whose
date failed to parse are dropped; if none remain this is the
no-valid-dates error; the weekend flag is derived from the date; a
missing school-day column defaults to not-weekend; a missing day-type
column defaults to school_day/weekend; output is sorted by date. -/
def process_calendar_data (t : RawCalendarTable) :
    Except String (List CalendarDay) :=
  if t.rows.isEmpty then Except.ok []
  else
    let withDates := t.rows.filterMap fun r =>
      match r.date with
      | some d => some (d, r)
      | none => none
    if withDates.isEmpty then
      Except.error "No valid dates found in calendar data"
    else
      let days := withDates.map fun p =>
        let wknd : Bool := decide (5 ≤ p.1 % 7)
        let school : Bool :=
          if t.hasSchoolDayCol then p.2.is_school_day else !wknd
        let dtype : String :=
          if t.hasDayTypeCol then p.2.day_type
          else if school then "school_day" else "weekend"
        ({ date := p.1, is_school_day := school, day_type := dtype,
           is_weekend := wknd } : CalendarDay)
      Except.ok (sortByDate days)

/-- One raw lesson row. Fields the source reads with `.get(..)` (which
may be absent) are `Option`; fields indexed directly (`lesson['title']`)
are required. -/
structure Lesson where
  class_id : Option Int
  lesson_number : Int
  title : String
  duration_hours : Option ℚ
  duration_type : Option String
  sequence_number : Option Int
  total_sequence : Option Int
  notes : Option String
  source_file : Option String
  file_type : Option String
  parsed_content : Option String
  lesson_id : Option Int
deriving DecidableEq, Repr

/-- One hour segment dict as built at calendar_processor.py lines
164-179, before a date is assigned. -/
structure Segment where
  class_id : Option Int
  lesson_number : Int
  title : String
  hour_segment : Nat
  total_segments : Nat
  duration_type : String
  sequence_number : Option Int
  total_sequence : Option Int
  status : String
  notes : String
  source_file : Option String
  file_type : Option String
  parsed_content : Option String
  duration_hours : ℚ
deriving DecidableEq, Repr

/-- A scheduled segment: the segment dict plus the assigned
`date_planned` and the `created_at`/`updated_at` timestamps added to
the resulting DataFrame. -/
structure ScheduledSegment where
  seg : Segment
  date_planned : Nat
  created_at : Nat
  updated_at : Nat
deriving DecidableEq, Repr

/-- Python `int(q)` on a rational: truncation toward zero. -/
def pyInt (q : ℚ) : Int :=
  q.num.tdiv (q.den : Int)

/-- Python `a or b` on optional integers: `a` when present and nonzero
(truthy), else `b` (source: `class_id or lesson.get('class_id')`). -/
def pyOrInt : Option Int → Option Int → Option Int
  | some v, b => if v = 0 then b else some v
  | none, b => b

/-- Expansion of one lesson into hour segments (calendar_processor.py
lines 148-180): effective hours are the raw duration, scaled by
hours-per-day for duration type days; `range(int(total_hours))`
produces one segment per whole hour, truncating fractions. -/
def expandLesson (hoursPerDay : Nat) (classId : Option Int) (l : Lesson) :
    List Segment :=
  let raw := l.duration_hours.getD 1
  let dtype := l.duration_type.getD "hours"
  let total : ℚ := if dtype = "days" then raw * (hoursPerDay : ℚ) else raw
  let n : Nat := (pyInt total).toNat
  (List.range n).map fun hour =>
    { class_id := pyOrInt classId l.class_id
      lesson_number := l.lesson_number
      title := l.title
      hour_segment := hour + 1
      total_segments := n
      duration_type := dtype
      sequence_number := l.sequence_number
      total_sequence := l.total_sequence
      status := "planned"
      notes := l.notes.getD ""
      source_file := l.source_file
      file_type := l.file_type
      parsed_content := l.parsed_content
      duration_hours := 1 }

/-- The inner scheduling loop over one lesson's segments
(calendar_processor.py lines 184-198). State: the shared day cursor
`idx` and the hours counter `hrs`. If the cursor has exhausted the
school days the remaining segments of this lesson are dropped (the
`break`); otherwise the segment is assigned the date at the cursor, the
counter increments, and when it reaches `h` the cursor advances and the
counter resets. Returns the placed (segment, date) pairs and the final
(cursor, counter) state. -/
def scheduleSegs (days : List CalendarDay) (h : Nat) :
    List Segment → Nat → Nat → List (Segment × Nat) × Nat × Nat
  | [], idx, hrs => ([], idx, hrs)
  | s :: rest, idx, hrs =>
    if hlt : idx < days.length then
      let d := (days.get ⟨idx, hlt⟩).date
      let hrs' := hrs + 1
      if h ≤ hrs' then
        let r := scheduleSegs days h rest (idx + 1) 0
        ((s, d) :: r.1, r.2)
      else
        let r := scheduleSegs days h rest idx hrs'
        ((s, d) :: r.1, r.2)
    else ([], idx, hrs)

/-- The outer loop over lessons (calendar_processor.py lines 147-198).
The day cursor carries over from lesson to lesson, but
`hours_scheduled = 0` (line 183) sits inside the per-lesson loop, so
the hours counter restarts at 0 for every lesson and the counter value
left by the previous lesson's tail is discarded. -/
def scheduleLessons (days : List CalendarDay) (h : Nat)
    (classId : Option Int) : List Lesson → Nat → List (Segment × Nat)
  | [], _ => []
  | l :: ls, idx =>
    let segs := expandLesson h classId l
    let r := scheduleSegs days h segs idx 0
    r.1 ++ scheduleLessons days h classId ls r.2.1

/-- Attach the assigned date and the `created_at`/`updated_at`
timestamps (calendar_processor.py lines 190, 203-205). -/
def stampSegment (now : Nat) (p : Segment × Nat) : ScheduledSegment :=
  { seg := p.1, date_planned := p.2, created_at := now, updated_at := now }

/-- `process_lessons_for_scheduling` (calendar_processor.py lines
119-207): empty lessons or calendar return an empty result; the
calendar is filtered to school days and sorted; an empty filtered
calendar is the no-school-days error; otherwise the greedy loop places
the segments and the result is timestamped with the clock `now`. -/
def process_lessons_for_scheduling (lessons : List Lesson)
    (calendar : List CalendarDay) (hoursPerDay : Nat)
    (classId : Option Int) (now : Nat) :
    Except String (List ScheduledSegment) :=
  if lessons.isEmpty || calendar.isEmpty then Except.ok []
  else
    let schoolDays := sortByDate (calendar.filter (·.is_school_day))
    if schoolDays.isEmpty then
      Except.error "No school days found in calendar data"
    else
      Except.ok
        ((scheduleLessons schoolDays hoursPerDay classId lessons 0).map
          (stampSegment now))

/-- Total number of segments the expansion step yields for a lesson
list (the input size the scheduling-conservation claim compares to). -/
def totalSegments (hoursPerDay : Nat) (classId : Option Int)
    (lessons : List Lesson) : Nat :=
  (lessons.map fun l => (expandLesson hoursPerDay classId l).length).sum

/-- Number of scheduled segments assigned a given date. -/
def countOnDay (out : List ScheduledSegment) (d : Nat) : Nat :=
  (out.filter fun s => s.date_planned = d).length

/-- Extract the list from a successful result, empty list on error
(used to state concrete evaluations of the embedded functions). -/
def okOrNil {α : Type} : Except String (List α) → List α
  | Except.ok l => l
  | Except.error _ => []

/-- One learning-target record (calendar_processor.py lines 238-256).
The nested `tags` dict holds only copies of other deterministic fields
and is not repeated here. -/
structure LearningTarget where
  target_id : Nat
  code : String
  short_name : String
  description : String
  domain : String
  bloom_level : String
  lesson_id : Option Int
  target_order : Nat
  estimated_time : ℚ
  created_at : Nat
  updated_at : Nat
deriving DecidableEq, Repr

/-- Python substring test `pat in s`. -/
def pyContains (s pat : String) : Bool :=
  1 < (s.splitOn pat).length

/-- `_extract_domain` (calendar_processor.py lines 448-465): first
matching keyword category wins. -/
def extract_domain (title content : String) : String :=
  let text := (title ++ " " ++ content).toLower
  if ["cyber", "security", "hacking", "encryption"].any (pyContains text) then
    "Cybersecurity"
  else if ["program", "code", "algorithm", "function", "variable"].any
      (pyContains text) then "Programming"
  else if ["data", "database", "sql", "analysis"].any (pyContains text) then
    "Data Science"
  else if ["web", "html", "css", "javascript"].any (pyContains text) then
    "Web Development"
  else if ["robot", "hardware", "circuit", "sensor"].any (pyContains text) then
    "Hardware"
  else if ["network", "internet", "protocol", "tcp"].any (pyContains text) then
    "Networking"
  else "Computer Science"

/-- `_extract_bloom_level` (calendar_processor.py lines 467-488). -/
def extract_bloom_level (objective : String) : String :=
  let obj := objective.toLower
  if ["create", "design", "develop", "construct", "build", "make"].any
      (pyContains obj) then "Create"
  else if ["evaluate", "judge", "critique", "assess", "rate", "compare"].any
      (pyContains obj) then "Evaluate"
  else if ["analyze", "compare", "contrast", "examine", "investigate",
      "explore"].any (pyContains obj) then "Analyze"
  else if ["apply", "use", "implement", "demonstrate", "execute",
      "practice"].any (pyContains obj) then "Apply"
  else if ["understand", "explain", "describe", "summarize", "interpret",
      "classify"].any (pyContains obj) then "Understand"
  else "Remember"

/-- Zero-padded decimal of a natural number to a field width. -/
def zpadNat (width n : Nat) : String :=
  let s := toString n
  String.mk (List.replicate (width - s.length) '0') ++ s

/-- Python format `f"{n:0wd}"` for an integer: the sign occupies one
position of the field width. -/
def pyFormatD (width : Nat) (n : Int) : String :=
  if n < 0 then "-" ++ zpadNat (width - 1) n.natAbs else zpadNat width n.natAbs

/-- The per-objective target-building loop of
`create_learning_targets_from_lessons` (calendar_processor.py lines
237-258), threading the running global `target_id` counter. -/
def mkTargets (now : Nat) (l : Lesson) :
    List String → Nat → List LearningTarget × Nat
  | [], tid => ([], tid)
  | obj :: rest, tid =>
    let t : LearningTarget :=
      { target_id := tid
        code := "LT-" ++ pyFormatD 3 l.lesson_number ++ "-" ++ pyFormatD 2 tid
        short_name := if 200 < obj.length then obj.take 200 else obj
        description := obj
        domain := extract_domain l.title (l.parsed_content.getD "")
        bloom_level := extract_bloom_level obj
        lesson_id := l.lesson_id
        target_order := tid
        estimated_time := 1
        created_at := now
        updated_at := now }
    let r := mkTargets now l rest (tid + 1)
    (t :: r.1, r.2)

/-- The per-lesson loop of `create_learning_targets_from_lessons`
(calendar_processor.py lines 225-258): objectives extracted from the
content (abstract extractor `eo`), falling back to a single synthetic
Complete-title objective when none are found. -/
def targetsLoop (eo : String → List String) (now : Nat) :
    List Lesson → Nat → List LearningTarget
  | [], _ => []
  | l :: ls, tid =>
    let content := l.parsed_content.getD ""
    let objectives := eo content
    let objectives' :=
      if objectives.isEmpty then ["Complete " ++ l.title] else objectives
    let r := mkTargets now l objectives' tid
    r.1 ++ targetsLoop eo now ls r.2

/-- `create_learning_targets_from_lessons` (calendar_processor.py lines
209-260): empty input returns empty; the target-id counter starts at 1
and runs across all lessons. -/
def create_learning_targets_from_lessons (eo : String → List String)
    (lessons : List Lesson) (now : Nat) : List LearningTarget :=
  if lessons.isEmpty then [] else targetsLoop eo now lessons 1

/-- The validation result dict of `validate_schedule`. -/
structure ValidationResult where
  valid : Bool
  warnings : List String
  errors : List String
deriving DecidableEq, Repr

/-- `validate_schedule` (calendar_processor.py lines 346-395): empty
scheduled lessons or empty calendar short-circuit to a valid result;
otherwise the four checks run in order — non-school-day placements
(error), weekend placements (warning), lesson-number gaps against the
range 1..count (warning), duplicate (date, lesson_number) pairs
(error); `valid` iff no errors. -/
def validate_schedule (scheduled : List ScheduledSegment)
    (calendar : List CalendarDay) : ValidationResult :=
  if scheduled.isEmpty || calendar.isEmpty then
    { valid := true, warnings := [], errors := [] }
  else
    let nonSchool := (calendar.filter fun d => d.is_school_day = false).map
      (·.date)
    let schedDates := scheduled.map (·.date_planned)
    let conflicts := (schedDates.filter (nonSchool.contains ·)).dedup
    let errors1 :=
      if conflicts.isEmpty then []
      else ["Lessons scheduled on non-school days: " ++ toString conflicts]
    let weekendCount :=
      (scheduled.filter fun s => 5 ≤ s.date_planned % 7).length
    let warnings1 :=
      if weekendCount = 0 then []
      else ["Lessons scheduled on weekends: " ++ toString weekendCount]
    let nums := (scheduled.map (·.seg.lesson_number)).dedup
    let expected := (List.range nums.length).map fun i => ((i : Int) + 1)
    let missing := expected.filter fun e => !(nums.contains e)
    let warnings2 :=
      if missing.isEmpty then []
      else ["Missing lesson numbers: " ++ toString missing]
    let pairs := scheduled.map fun s => (s.date_planned, s.seg.lesson_number)
    let dupPairs := pairs.dedup.filter fun p =>
      1 < (pairs.filter (· = p)).length
    let errors2 :=
      if dupPairs.isEmpty then []
      else ["Duplicate lesson numbers on same date: " ++
        toString dupPairs.length]
    { valid := (errors1 ++ errors2).isEmpty
      warnings := warnings1 ++ warnings2
      errors := errors1 ++ errors2 }

/-! Concrete fixtures used by the claim theorems. -/

/-- A school-calendar day fixture at a given date. -/
def exDay (d : Nat) (school : Bool) : CalendarDay :=
  { date := d, is_school_day := school, day_type := "regular",
    is_weekend := decide (5 ≤ d % 7) }

/-- A lesson fixture with a given number, duration and duration type. -/
def exLesson (k : Int) (dur : ℚ) (dt : Option String) : Lesson :=
  { class_id := none, lesson_number := k, title := "Lesson",
    duration_hours := some dur, duration_type := dt,
    sequence_number := none, total_sequence := none, notes := none,
    source_file := none, file_type := none, parsed_content := none,
    lesson_id := none }

/-- Five consecutive instructional weekdays, dates 0 (a Monday) to 4. -/
def exCal5 : List CalendarDay :=
  [exDay 0 true, exDay 1 true, exDay 2 true, exDay 3 true, exDay 4 true]

/-! Helper lemmas about the date sort. -/

lemma length_insertByDate (x : CalendarDay) (l : List CalendarDay) :
    (insertByDate x l).length = l.length + 1 := by
  induction l with
  | nil => rfl
  | cons y ys ih =>
    simp only [insertByDate]
    split <;> simp [ih]

lemma length_sortByDate (l : List CalendarDay) :
    (sortByDate l).length = l.length := by
  induction l with
  | nil => rfl
  | cons x xs ih =>
    show (insertByDate x (sortByDate xs)).length = xs.length + 1
    rw [length_insertByDate, ih]

lemma mem_insertByDate {a x : CalendarDay} {l : List CalendarDay} :
    a ∈ insertByDate x l ↔ a = x ∨ a ∈ l := by
  induction l with
  | nil => simp [insertByDate]
  | cons y ys ih =>
    simp only [insertByDate]
    split
    · simp
    · simp only [List.mem_cons, ih]
      tauto

lemma mem_sortByDate {a : CalendarDay} {l : List CalendarDay} :
    a ∈ sortByDate l ↔ a ∈ l := by
  induction l with
  | nil => simp [sortByDate]
  | cons x xs ih =>
    show a ∈ insertByDate x (sortByDate xs) ↔ _
    rw [mem_insertByDate]
    simp [ih]

/-- The row-with-date pairing of `process_calendar_data` keeps one
entry per row whose date parsed. -/
lemma length_withDates (rows : List RawCalendarRow) :
    (rows.filterMap fun r =>
      match r.date with
      | some d => some (d, r)
      | none => none).length = (rows.filterMap (·.date)).length := by
  induction rows with
  | nil => rfl
  | cons r rs ih => cases hd : r.date <;> simp [List.filterMap_cons, hd, ih]

/-! Claims C1 and C2: the greedy scheduler's capacity counter. -/

/-- Claim C1 (code_bug evidence): three one-hour lessons under a
two-hour daily capacity are all assigned to day 0 — the hours counter
restarts at zero for every lesson (calendar_processor.py line 183 is
inside the per-lesson loop), so the cursor never advances, whereas a
counter shared across lessons would place the third lesson on day 1. -/
theorem C1_counter_resets_each_lesson :
    (okOrNil (process_lessons_for_scheduling
        [exLesson 1 1 none, exLesson 2 1 none, exLesson 3 1 none]
        exCal5 2 none 0)).map (·.date_planned) = [0, 0, 0] := by
  rfl

/-- Claim C2 (code_bug evidence): with daily capacity 2, a 3-hour
lesson followed by a 2-hour lesson puts 3 segments on instructional day
1 — the per-lesson counter reset lets a day at a lesson boundary exceed
the daily capacity. -/
theorem C2_capacity_exceeded :
    countOnDay (okOrNil (process_lessons_for_scheduling
        [exLesson 1 3 none, exLesson 2 2 none] exCal5 2 none 0)) 1 = 3 ∧
    2 < 3 := by
  exact ⟨rfl, by omega⟩

/-! Claim C4: duplicate dates are all kept, not last-wins. -/

/-- Two raw rows whose dates parse to the same calendar date 0. -/
def c4DupTable : RawCalendarTable :=
  { hasSchoolDayCol := true, hasDayTypeCol := true,
    rows := [{ date := some 0, is_school_day := true, day_type := "regular" },
             { date := some 0, is_school_day := false, day_type := "holiday" }] }

/-- Claim C4 counterexample: on two rows with the same parsed date the
output timeline contains two entries for that date, so
`process_calendar_data` does not keep only the last row per date. -/
theorem C4_counterexample :
    (okOrNil (process_calendar_data c4DupTable)).map (·.date) = [0, 0] := by
  rfl

/-- Claim C4 (amended): `process_calendar_data` performs no
de-duplication — every row whose date parses contributes exactly one
output entry, so duplicate-date rows all remain in the timeline. -/
theorem C4_no_dedup (t : RawCalendarTable) (out : List CalendarDay)
    (hok : process_calendar_data t = Except.ok out) :
    out.length = (t.rows.filterMap (·.date)).length := by
  unfold process_calendar_data at hok
  by_cases h0 : t.rows.isEmpty
  · rw [List.isEmpty_iff] at h0
    simp only [h0, List.isEmpty_nil, if_true, Except.ok.injEq] at hok
    simp [← hok, h0]
  · simp only [h0, Bool.false_eq_true, if_false] at hok
    by_cases h1 : (t.rows.filterMap fun r =>
        match r.date with
        | some d => some (d, r)
        | none => none).isEmpty
    · simp [h1] at hok
    · simp only [h1, Bool.false_eq_true, if_false, Except.ok.injEq] at hok
      rw [← hok, length_sortByDate, List.length_map, length_withDates]

/-- Claim C4 witness: the amended theorem applied to the concrete
duplicate-date table. -/
theorem C4_witness :
    process_calendar_data c4DupTable =
      Except.ok (okOrNil (process_calendar_data c4DupTable)) ∧
    (okOrNil (process_calendar_data c4DupTable)).length =
      (c4DupTable.rows.filterMap (·.date)).length :=
  ⟨rfl, C4_no_dedup c4DupTable (okOrNil (process_calendar_data c4DupTable)) rfl⟩

/-! Claim C3: scheduling conservation. -/

/-- The scheduler never emits more segments than it was given. -/
lemma scheduleSegs_length_le (days : List CalendarDay) (h : Nat) :
    ∀ (segs : List Segment) (idx hrs : Nat),
    (scheduleSegs days h segs idx hrs).1.length ≤ segs.length := by
  intro segs
  induction segs with
  | nil => intro idx hrs; simp [scheduleSegs]
  | cons s rest ih =>
    intro idx hrs
    simp only [scheduleSegs]
    split
    · split
      · simpa using ih (idx + 1) 0
      · simpa using ih idx (hrs + 1)
    · simp

/-- Capacity accounting for the inner loop: with a positive capacity
`h`, a counter below `h` and enough room in the remaining days
(`h * idx + hrs` being the capacity already consumed), every segment is
placed and the final cursor/counter state consumes exactly one unit per
segment. -/
lemma scheduleSegs_full (days : List CalendarDay) (h : Nat) :
    ∀ (segs : List Segment) (idx hrs : Nat), hrs < h →
    h * idx + hrs + segs.length ≤ h * days.length →
    (scheduleSegs days h segs idx hrs).1.length = segs.length ∧
    h * (scheduleSegs days h segs idx hrs).2.1 +
        (scheduleSegs days h segs idx hrs).2.2 =
      h * idx + hrs + segs.length ∧
    (scheduleSegs days h segs idx hrs).2.2 < h := by
  intro segs
  induction segs with
  | nil => intro idx hrs hhrs hcap; simp [scheduleSegs, hhrs]
  | cons s rest ih =>
    intro idx hrs hhrs hcap
    have hlen : (s :: rest).length = rest.length + 1 := rfl
    have hidx : idx < days.length := by
      by_contra hno
      push_neg at hno
      have hmul : h * days.length ≤ h * idx :=
        Nat.mul_le_mul (Nat.le_refl h) hno
      omega
    simp only [scheduleSegs, dif_pos hidx]
    by_cases hadv : h ≤ hrs + 1
    · have heq : hrs + 1 = h := by omega
      rw [if_pos hadv]
      have hms : h * (idx + 1) = h * idx + h := Nat.mul_succ h idx
      have hcap' : h * (idx + 1) + 0 + rest.length ≤ h * days.length := by
        omega
      obtain ⟨l1, l2, l3⟩ := ih (idx + 1) 0 (by omega) hcap'
      refine ⟨by simpa using l1, by simpa using by omega, l3⟩
    · rw [if_neg hadv]
      have hcap' : h * idx + (hrs + 1) + rest.length ≤ h * days.length := by
        omega
      obtain ⟨l1, l2, l3⟩ := ih idx (hrs + 1) (by omega) hcap'
      exact ⟨by simpa using l1, by simpa using by omega, l3⟩

/-- The outer loop never emits more segments than the expansions
provide. -/
lemma scheduleLessons_length_le (days : List CalendarDay) (h : Nat)
    (cid : Option Int) :
    ∀ (ls : List Lesson) (idx : Nat),
    (scheduleLessons days h cid ls idx).length ≤ totalSegments h cid ls := by
  intro ls
  induction ls with
  | nil => intro idx; simp [scheduleLessons, totalSegments]
  | cons l rest ih =>
    intro idx
    have h1 := scheduleSegs_length_le days h (expandLesson h cid l) idx 0
    have h2 := ih (scheduleSegs days h (expandLesson h cid l) idx 0).2.1
    have htot : totalSegments h cid (l :: rest) =
        (expandLesson h cid l).length + totalSegments h cid rest := by
      simp [totalSegments]
    simp only [scheduleLessons, List.length_append]
    omega

/-- When the total expansion fits in the remaining capacity, the outer
loop places every segment. -/
lemma scheduleLessons_full (days : List CalendarDay) (h : Nat)
    (cid : Option Int) (hpos : 0 < h) :
    ∀ (ls : List Lesson) (idx : Nat),
    h * idx + totalSegments h cid ls ≤ h * days.length →
    (scheduleLessons days h cid ls idx).length = totalSegments h cid ls := by
  intro ls
  induction ls with
  | nil => intro idx hcap; simp [scheduleLessons, totalSegments]
  | cons l rest ih =>
    intro idx hcap
    have htot : totalSegments h cid (l :: rest) =
        (expandLesson h cid l).length + totalSegments h cid rest := by
      simp [totalSegments]
    have hcap1 : h * idx + 0 + (expandLesson h cid l).length ≤
        h * days.length := by omega
    obtain ⟨l1, l2, l3⟩ :=
      scheduleSegs_full days h (expandLesson h cid l) idx 0 hpos hcap1
    have hcap2 : h * (scheduleSegs days h (expandLesson h cid l) idx 0).2.1 +
        totalSegments h cid rest ≤ h * days.length := by omega
    have hrec := ih (scheduleSegs days h (expandLesson h cid l) idx 0).2.1 hcap2
    simp only [scheduleLessons, List.length_append]
    omega

/-- Claim C3: the number of scheduled segments produced by
`process_lessons_for_scheduling` is at most the total number of
expanded input segments, and equals that total whenever the total is at
most hoursPerDay times the count of instructional days. -/
theorem C3_scheduling_conservation (lessons : List Lesson)
    (cal : List CalendarDay) (h : Nat) (cid : Option Int) (now : Nat)
    (out : List ScheduledSegment)
    (hok : process_lessons_for_scheduling lessons cal h cid now =
      Except.ok out) :
    out.length ≤ totalSegments h cid lessons ∧
    (totalSegments h cid lessons ≤
        h * (cal.filter (·.is_school_day)).length →
      out.length = totalSegments h cid lessons) := by
  unfold process_lessons_for_scheduling at hok
  by_cases h0 : (lessons.isEmpty || cal.isEmpty) = true
  · rw [if_pos h0, Except.ok.injEq] at hok
    rcases Bool.or_eq_true_iff.mp h0 with he | he
    · rw [List.isEmpty_iff] at he
      subst he
      simp [totalSegments, ← hok]
    · rw [List.isEmpty_iff] at he
      constructor
      · simp [← hok]
      · intro hcap
        rw [he] at hcap
        simp only [List.filter_nil, List.length_nil, Nat.mul_zero,
          Nat.le_zero] at hcap
        simp [← hok, hcap]
  · rw [if_neg h0] at hok
    by_cases hs : (sortByDate (cal.filter (·.is_school_day))).isEmpty = true
    · simp only [hs, if_true, reduceCtorEq] at hok
    · simp only [hs, Bool.false_eq_true, if_false, Except.ok.injEq] at hok
      have hlen : out.length =
          (scheduleLessons (sortByDate (cal.filter (·.is_school_day))) h cid
            lessons 0).length := by
        rw [← hok, List.length_map]
      have hD : (sortByDate (cal.filter (·.is_school_day))).length =
          (cal.filter (·.is_school_day)).length := length_sortByDate _
      constructor
      · rw [hlen]
        exact scheduleLessons_length_le _ h cid lessons 0
      · intro hcap
        rcases Nat.eq_zero_or_pos h with hz | hpos
        · have hle := scheduleLessons_length_le
            (sortByDate (cal.filter (·.is_school_day))) h cid lessons 0
          subst hz
          simp only [Nat.zero_mul, Nat.le_zero] at hcap
          omega
        · rw [hlen]
          apply scheduleLessons_full _ h cid hpos lessons 0
          rw [hD]
          omega

/-- Claim C3 witness: the theorem applied to a two-hour lesson over
five instructional days at one hour per day. -/
theorem C3_witness :
    process_lessons_for_scheduling [exLesson 1 2 none] exCal5 1 none 0 =
      Except.ok (okOrNil
        (process_lessons_for_scheduling [exLesson 1 2 none] exCal5 1 none 0)) ∧
    ((okOrNil (process_lessons_for_scheduling [exLesson 1 2 none] exCal5 1
        none 0)).length ≤ totalSegments 1 none [exLesson 1 2 none] ∧
      (totalSegments 1 none [exLesson 1 2 none] ≤
          1 * (exCal5.filter (·.is_school_day)).length →
        (okOrNil (process_lessons_for_scheduling [exLesson 1 2 none] exCal5 1
          none 0)).length = totalSegments 1 none [exLesson 1 2 none])) :=
  ⟨rfl, C3_scheduling_conservation [exLesson 1 2 none] exCal5 1 none 0
    (okOrNil (process_lessons_for_scheduling [exLesson 1 2 none] exCal5 1
      none 0)) rfl⟩

/-! Claim C5: the no-valid-dates error and the empty-input early return. -/

/-- An empty raw calendar table. -/
def c5EmptyTable : RawCalendarTable :=
  { hasSchoolDayCol := false, hasDayTypeCol := false, rows := [] }

/-- A one-row table whose only date failed to parse. -/
def c5NoneTable : RawCalendarTable :=
  { hasSchoolDayCol := false, hasDayTypeCol := false,
    rows := [{ date := none, is_school_day := true, day_type := "regular" }] }

/-- Claim C5 counterexample: on an empty raw calendar table
`process_calendar_data` returns an empty result (calendar_processor.py
lines 55-56) instead of failing with the no-valid-dates error. -/
theorem C5_counterexample :
    process_calendar_data c5EmptyTable = Except.ok [] := by
  rfl

/-- Claim C5 (amended): for a non-empty raw table, if every row's date
fails to parse then `process_calendar_data` fails with the
no-valid-dates error; an empty table instead returns an empty result. -/
theorem C5_no_valid_dates_error (t : RawCalendarTable)
    (hne : t.rows ≠ []) (hall : ∀ r ∈ t.rows, r.date = none) :
    process_calendar_data t =
      Except.error "No valid dates found in calendar data" := by
  unfold process_calendar_data
  have h0 : t.rows.isEmpty = false := by
    cases h : t.rows with
    | nil => exact absurd h hne
    | cons a l => rfl
  have h1 : (t.rows.filterMap fun r =>
      match r.date with
      | some d => some (d, r)
      | none => none) = [] := by
    rw [List.filterMap_eq_nil_iff]
    intro r hr
    rw [hall r hr]
  simp [h0, h1]

/-- Claim C5 witness: the amended theorem applied to the concrete
one-row unparseable table. -/
theorem C5_witness :
    (c5NoneTable.rows ≠ [] ∧ ∀ r ∈ c5NoneTable.rows, r.date = none) ∧
    process_calendar_data c5NoneTable =
      Except.error "No valid dates found in calendar data" :=
  ⟨⟨by decide, by decide⟩,
    C5_no_valid_dates_error c5NoneTable (by decide) (by decide)⟩

/-! Claim C6: the no-school-days error and the empty-input early return. -/

/-- Claim C6 counterexample: with a non-empty lesson list and an empty
timeline (whose instructional filtering is certainly empty),
`process_lessons_for_scheduling` returns an empty result
(calendar_processor.py lines 133-134) instead of failing with the
no-school-days error. -/
theorem C6_counterexample :
    process_lessons_for_scheduling [exLesson 1 1 none] [] 1 none 0 =
      Except.ok [] := by
  rfl

/-- Claim C6 (amended): `process_lessons_for_scheduling` fails with the
no-school-days error whenever the lesson list and the timeline are both
non-empty and no timeline day is instructional; an empty timeline (or
empty lesson list) instead returns an empty result. -/
theorem C6_no_school_days_error (lessons : List Lesson)
    (cal : List CalendarDay) (h : Nat) (cid : Option Int) (now : Nat)
    (hl : lessons ≠ []) (hc : cal ≠ [])
    (hns : ∀ d ∈ cal, d.is_school_day = false) :
    process_lessons_for_scheduling lessons cal h cid now =
      Except.error "No school days found in calendar data" := by
  unfold process_lessons_for_scheduling
  have h0 : lessons.isEmpty = false := by
    cases hx : lessons with
    | nil => exact absurd hx hl
    | cons a l => rfl
  have h1 : cal.isEmpty = false := by
    cases hx : cal with
    | nil => exact absurd hx hc
    | cons a l => rfl
  have h2 : cal.filter (·.is_school_day) = [] := by
    rw [List.filter_eq_nil_iff]
    intro d hd
    simp [hns d hd]
  simp [h0, h1, h2, sortByDate]

/-- Claim C6 witness: the amended theorem applied to a one-lesson input
and a one-day timeline whose single day is non-instructional. -/
theorem C6_witness :
    ([exLesson 1 1 none] ≠ ([] : List Lesson) ∧
      [exDay 5 false] ≠ ([] : List CalendarDay) ∧
      ∀ d ∈ [exDay 5 false], d.is_school_day = false) ∧
    process_lessons_for_scheduling [exLesson 1 1 none] [exDay 5 false]
        1 none 0 =
      Except.error "No school days found in calendar data" :=
  ⟨⟨by decide, by decide, by decide⟩,
    C6_no_school_days_error [exLesson 1 1 none] [exDay 5 false] 1 none 0
      (by decide) (by decide) (by decide)⟩

/-! Claim C7: expansion yields floor(effective hours) segments. -/

/-- On nonnegative rationals, Python truncation agrees with floor. -/
lemma pyInt_eq_floor (q : ℚ) (hq : 0 ≤ q) : pyInt q = ⌊q⌋ := by
  unfold pyInt
  rw [Rat.floor_def]
  exact Int.tdiv_eq_ediv (Rat.num_nonneg.mpr hq) (Int.natCast_nonneg _)

/-- The expansion produces one segment per whole effective hour. -/
lemma expandLesson_length (hpd : Nat) (cid : Option Int) (l : Lesson) :
    (expandLesson hpd cid l).length =
      (pyInt (if l.duration_type.getD "hours" = "days" then
        l.duration_hours.getD 1 * (hpd : ℚ)
      else l.duration_hours.getD 1)).toNat := by
  simp [expandLesson]

/-- Claim C7: for a lesson with nonnegative raw duration, the expansion
step produces exactly floor(effective hours) segments, where the
effective hours are the raw value for duration types hours, blocks and
sequential, and the raw value times hours-per-day for type days. -/
theorem C7_segment_count (l : Lesson) (hpd : Nat) (cid : Option Int)
    (hnn : 0 ≤ l.duration_hours.getD 1) :
    ((l.duration_type.getD "hours" = "hours" ∨
      l.duration_type.getD "hours" = "blocks" ∨
      l.duration_type.getD "hours" = "sequential") →
      ((expandLesson hpd cid l).length : ℤ) = ⌊l.duration_hours.getD 1⌋) ∧
    (l.duration_type.getD "hours" = "days" →
      ((expandLesson hpd cid l).length : ℤ) =
        ⌊l.duration_hours.getD 1 * (hpd : ℚ)⌋) := by
  constructor
  · intro hdt
    have hne : ¬ l.duration_type.getD "hours" = "days" := by
      rcases hdt with hx | hx | hx <;> rw [hx] <;> decide
    rw [expandLesson_length, if_neg hne, pyInt_eq_floor _ hnn,
      Int.toNat_of_nonneg (Int.floor_nonneg.mpr hnn)]
  · intro hdt
    have hnn2 : 0 ≤ l.duration_hours.getD 1 * (hpd : ℚ) :=
      mul_nonneg hnn (by positivity)
    rw [expandLesson_length, if_pos hdt, pyInt_eq_floor _ hnn2,
      Int.toNat_of_nonneg (Int.floor_nonneg.mpr hnn2)]

/-- Claim C7 witness: a 1.5-hour lesson yields exactly one segment,
floor of 3/2. -/
theorem C7_witness :
    (0 : ℚ) ≤ (exLesson 1 (3 / 2) none).duration_hours.getD 1 ∧
    (((exLesson 1 (3 / 2) none).duration_type.getD "hours" = "hours" ∨
      (exLesson 1 (3 / 2) none).duration_type.getD "hours" = "blocks" ∨
      (exLesson 1 (3 / 2) none).duration_type.getD "hours" = "sequential") →
      ((expandLesson 4 none (exLesson 1 (3 / 2) none)).length : ℤ) =
        ⌊(exLesson 1 (3 / 2) none).duration_hours.getD 1⌋) ∧
    ((exLesson 1 (3 / 2) none).duration_type.getD "hours" = "days" →
      ((expandLesson 4 none (exLesson 1 (3 / 2) none)).length : ℤ) =
        ⌊(exLesson 1 (3 / 2) none).duration_hours.getD 1 * ((4 : Nat) : ℚ)⌋) :=
  ⟨by norm_num [exLesson], C7_segment_count (exLesson 1 (3 / 2) none) 4 none
    (by norm_num [exLesson])⟩

/-! Claim C8: determinism of the pipeline across invocations. -/

/-- A scheduled segment without its timestamp fields. -/
def stripSched (s : ScheduledSegment) : Segment × Nat :=
  (s.seg, s.date_planned)

/-- A learning target without its timestamp fields. -/
def stripTarget (t : LearningTarget) :
    Nat × String × String × String × String × String × Option Int × Nat × ℚ :=
  (t.target_id, t.code, t.short_name, t.description, t.domain,
    t.bloom_level, t.lesson_id, t.target_order, t.estimated_time)

/-- Claim C8 counterexample: the same scheduling input at two clock
readings produces different outputs — the created_at/updated_at columns
record the invocation time, so two invocations on identical inputs are
not identical. -/
theorem C8_counterexample :
    process_lessons_for_scheduling [exLesson 1 1 none] exCal5 1 none 0 ≠
      process_lessons_for_scheduling [exLesson 1 1 none] exCal5 1 none 1 := by
  intro hcontra
  have h2 := congrArg (fun e : Except String (List ScheduledSegment) =>
    (okOrNil e).map (fun s => s.created_at)) hcontra
  exact absurd h2 (by decide)

/-- Stripping the timestamps undoes the stamping. -/
lemma strip_stamp (now : Nat) (l : List (Segment × Nat)) :
    (l.map (stampSegment now)).map stripSched = l := by
  induction l with
  | nil => rfl
  | cons p ps ih => simp [stampSegment, stripSched, ih]

/-- The target-building loop is clock-invariant up to timestamps, and
the running counter does not depend on the clock at all. -/
lemma mkTargets_strip (l : Lesson) :
    ∀ (objs : List String) (tid t1 t2 : Nat),
    (mkTargets t1 l objs tid).1.map stripTarget =
      (mkTargets t2 l objs tid).1.map stripTarget ∧
    (mkTargets t1 l objs tid).2 = (mkTargets t2 l objs tid).2 := by
  intro objs
  induction objs with
  | nil => intro tid t1 t2; exact ⟨rfl, rfl⟩
  | cons o os ih =>
    intro tid t1 t2
    obtain ⟨h1, h2⟩ := ih (tid + 1) t1 t2
    refine ⟨?_, h2⟩
    simp only [mkTargets, List.map_cons]
    rw [h1]
    rfl

/-- The per-lesson target loop is clock-invariant up to timestamps. -/
lemma targetsLoop_strip (eo : String → List String) :
    ∀ (ls : List Lesson) (tid t1 t2 : Nat),
    (targetsLoop eo t1 ls tid).map stripTarget =
      (targetsLoop eo t2 ls tid).map stripTarget := by
  intro ls
  induction ls with
  | nil => intro tid t1 t2; rfl
  | cons l rest ih =>
    intro tid t1 t2
    simp only [targetsLoop, List.map_append]
    obtain ⟨h1, h2⟩ := mkTargets_strip l
      (if (eo (l.parsed_content.getD "")).isEmpty then
        ["Complete " ++ l.title] else eo (l.parsed_content.getD ""))
      tid t1 t2
    rw [h1, h2, ih]

/-- Claim C8 (amended): calendar processing takes no clock input and is
a pure function of its argument; scheduling and target extraction are
pure functions of their inputs and the invocation clock, and two
invocations on identical inputs agree on everything except the
created_at/updated_at fields, which record the invocation time. -/
theorem C8_deterministic_up_to_timestamps (eo : String → List String)
    (lessons : List Lesson) (cal : List CalendarDay) (h : Nat)
    (cid : Option Int) (t1 t2 : Nat) :
    Except.map (List.map stripSched)
        (process_lessons_for_scheduling lessons cal h cid t1) =
      Except.map (List.map stripSched)
        (process_lessons_for_scheduling lessons cal h cid t2) ∧
    (create_learning_targets_from_lessons eo lessons t1).map stripTarget =
      (create_learning_targets_from_lessons eo lessons t2).map stripTarget := by
  constructor
  · by_cases h0 : (lessons.isEmpty || cal.isEmpty) = true
    · simp [process_lessons_for_scheduling, h0]
    · by_cases hs : (sortByDate (cal.filter (·.is_school_day))).isEmpty = true
      · simp [process_lessons_for_scheduling, h0, hs]
      · simp only [process_lessons_for_scheduling, h0, hs, Bool.false_eq_true,
          if_false, Except.map, strip_stamp]
  · unfold create_learning_targets_from_lessons
    split
    · rfl
    · exact targetsLoop_strip eo lessons 1 t1 t2

/-! Claim C9: the default instructional flag and default day type. -/

/-- A one-row table lacking both optional columns, whose date 0 is a
Monday. -/
def c9MondayTable : RawCalendarTable :=
  { hasSchoolDayCol := false, hasDayTypeCol := false,
    rows := [{ date := some 0, is_school_day := false, day_type := "" }] }

/-- Claim C9 counterexample: a weekday row lacking a day-type tag
receives day_type school_day (calendar_processor.py line 107), not
regular as claimed. -/
theorem C9_counterexample :
    (okOrNil (process_calendar_data c9MondayTable)).map (·.day_type) =
      ["school_day"] ∧ "school_day" ≠ "regular" := by
  exact ⟨rfl, by decide⟩

/-- Claim C9 (amended): when the raw table has neither an instructional
flag column nor a day-type column, every output day is instructional
exactly when its date falls on Monday through Friday, and its day_type
is school_day when instructional and weekend otherwise. -/
theorem C9_default_flags (t : RawCalendarTable)
    (h1 : t.hasSchoolDayCol = false) (h2 : t.hasDayTypeCol = false)
    (out : List CalendarDay)
    (hok : process_calendar_data t = Except.ok out) :
    ∀ d ∈ out, (d.is_school_day = true ↔ d.date % 7 < 5) ∧
      d.day_type = (if d.is_school_day then "school_day" else "weekend") := by
  unfold process_calendar_data at hok
  by_cases h0 : t.rows.isEmpty
  · simp only [h0, if_true, Except.ok.injEq] at hok
    rw [← hok]
    intro d hd
    cases hd
  · simp only [h0, Bool.false_eq_true, if_false] at hok
    by_cases hw : (t.rows.filterMap fun r =>
        match r.date with
        | some d => some (d, r)
        | none => none).isEmpty
    · simp [hw] at hok
    · simp only [hw, Bool.false_eq_true, if_false, h1, h2, if_false,
        Except.ok.injEq] at hok
      rw [← hok]
      intro d hd
      rw [mem_sortByDate] at hd
      rcases List.mem_map.mp hd with ⟨p, _, hp⟩
      rw [← hp]
      constructor
      · simp only [Bool.not_eq_true', decide_eq_false_iff_not, Nat.not_le]
      · rfl

/-- Claim C9 witness: the amended theorem applied to the concrete
Monday table. -/
theorem C9_witness :
    (c9MondayTable.hasSchoolDayCol = false ∧
      c9MondayTable.hasDayTypeCol = false ∧
      process_calendar_data c9MondayTable =
        Except.ok (okOrNil (process_calendar_data c9MondayTable))) ∧
    ∀ d ∈ okOrNil (process_calendar_data c9MondayTable),
      (d.is_school_day = true ↔ d.date % 7 < 5) ∧
      d.day_type = (if d.is_school_day then "school_day" else "weekend") :=
  ⟨⟨rfl, rfl, rfl⟩,
    C9_default_flags c9MondayTable rfl rfl
      (okOrNil (process_calendar_data c9MondayTable)) rfl⟩

/-! Claim C10: validation short-circuits on empty inputs. -/

/-- Claim C10: `validate_schedule` returns valid with empty warning and
error lists whenever the scheduled-segment list or the timeline is
empty (calendar_processor.py lines 357-358). -/
theorem C10_empty_inputs (s : List ScheduledSegment)
    (cal : List CalendarDay) (h : s = [] ∨ cal = []) :
    validate_schedule s cal =
      { valid := true, warnings := [], errors := [] } := by
  unfold validate_schedule
  rcases h with h | h <;> subst h <;> simp

/-- Claim C10 witness: the theorem applied with an empty scheduled list
against a non-empty timeline. -/
theorem C10_witness :
    (([] : List ScheduledSegment) = [] ∨ exCal5 = []) ∧
    validate_schedule [] exCal5 =
      { valid := true, warnings := [], errors := [] } :=
  ⟨Or.inl rfl, C10_empty_inputs [] exCal5 (Or.inl rfl)⟩

end EdTrack
